import Mathlib

/-!
Verification of the bustub buffer-pool subsystem: a shallow embedding of
the buffer pool manager (`src/buffer/buffer_pool_manager.cpp`), the LRU-K
replacer (`src/buffer/lru_k_replacer.cpp`), the page guards
(`src/storage/page/page_guard.cpp`), the hash-table bucket page
(`src/storage/page/hash_table_bucket_page.cpp`) and the disk extendible
hash table (`src/container/disk/hash/disk_extendible_hash_table.cpp`),
with theorems settling the specified properties.

Machine integers are modelled as `Nat`/`Int` with explicit `% 2^32` or
`% 2^64` wrap where the C++ uses fixed-width unsigned arithmetic and the
wrap is reachable.  Only class headers are absent from the sources; the
few declarations living there (field defaults, two bit-setters, the
page-id allocator body) are modelled from the spec and marked as such.
-/

namespace Bustub

/-! ## Association lists (for `std::unordered_map` members)

The C++ code keeps `node_store_` and `page_table_` in hash maps.  No code
path iterates `node_store_`, and `page_table_` iteration order is
unspecified in C++, so an association list (first-match lookup) is a
faithful executable model.  `aset` mirrors `operator[]`-style
insert-or-assign, `aerase` mirrors `erase`.
-/

def alookup {α β : Type} [DecidableEq α] : List (α × β) → α → Option β
  | [], _ => none
  | (a, b) :: t, x => if a = x then some b else alookup t x

def aset {α β : Type} [DecidableEq α] : List (α × β) → α → β → List (α × β)
  | [], x, y => [(x, y)]
  | (a, b) :: t, x, y => if a = x then (x, y) :: t else (a, b) :: aset t x y

def aerase {α β : Type} [DecidableEq α] (l : List (α × β)) (x : α) : List (α × β) :=
  l.filter (fun pr => pr.1 ≠ x)

def keysNodup {α β : Type} (l : List (α × β)) : Prop :=
  (l.map Prod.fst).Nodup

instance {α β : Type} [DecidableEq α] (l : List (α × β)) : Decidable (keysNodup l) := by
  unfold keysNodup; infer_instance

theorem alookup_some_mem {α β : Type} [DecidableEq α] {l : List (α × β)} {x : α} {b : β}
    (h : alookup l x = some b) : (x, b) ∈ l := by
  induction l with
  | nil => simp [alookup] at h
  | cons hd t ih =>
    obtain ⟨a, c⟩ := hd
    by_cases hx : a = x
    · subst hx
      simp only [alookup, if_pos rfl] at h
      cases h
      exact List.mem_cons_self _ _
    · simp only [alookup, if_neg hx] at h
      exact List.mem_cons_of_mem _ (ih h)

theorem mem_alookup_of_nodup {α β : Type} [DecidableEq α] {l : List (α × β)} {x : α} {b : β}
    (hnd : keysNodup l) (h : (x, b) ∈ l) : alookup l x = some b := by
  induction l with
  | nil => simp at h
  | cons hd t ih =>
    obtain ⟨a, c⟩ := hd
    unfold keysNodup at hnd
    simp only [List.map_cons, List.nodup_cons] at hnd
    rcases List.mem_cons.mp h with h1 | h1
    · injection h1 with h2 h3
      subst h2
      subst h3
      simp [alookup]
    · have hx : a ≠ x := by
        intro he
        subst he
        exact hnd.1 (List.mem_map.mpr ⟨(a, b), h1, rfl⟩)
      simp only [alookup, if_neg hx]
      exact ih hnd.2 h1

theorem alookup_aerase {α β : Type} [DecidableEq α] (l : List (α × β)) (x : α) :
    alookup (aerase l x) x = none := by
  induction l with
  | nil => rfl
  | cons hd t ih =>
    by_cases hx : hd.1 = x
    · simpa [aerase, hx] using ih
    · simpa [aerase, alookup, hx] using ih

/-! ## LRU-K replacer (`src/buffer/lru_k_replacer.cpp`)

`LRUKNode` lives in the absent header.  Modelled from the spec: per
tracked frame an access count and an `is_evictable` flag; a frame becomes
a candidate for eviction only when `is_evictable`, so a freshly created
node is not evictable (`is_evictable := false`).

The fields `ghost_first`, `ghost_last` and the replacer field `clock` are
specification-only observers (the timestamps of the first and the most
recent `RecordAccess` of the frame, under a monotone counter); the code
keeps no timestamps, and no embedded operation branches on these fields.
They exist solely so that temporal eviction-order properties can be
stated.
-/

structure LRUKNode where
  access_cnt : Nat := 0
  is_evictable : Bool := false
  ghost_first : Nat := 0
  ghost_last : Nat := 0
  ghost_hist : List Nat := []
deriving DecidableEq

instance : Inhabited LRUKNode := ⟨{}⟩

structure LRUKReplacer where
  k : Nat
  node_store : List (Nat × LRUKNode) := []
  candidates : List Nat := []
  candidates_k : List Nat := []
  replacer_size : Nat := 0
  clock : Nat := 0
deriving DecidableEq

/-- The constructor `LRUKReplacer(num_frames, k)`: `k_(k), replacer_size_(0)`. -/
def lrukInit (k : Nat) : LRUKReplacer := { k := k }

/-- The node currently stored for a frame (`node_store_[f]` read on an
existing key; absent keys give the default node, matching the
value-initialisation `operator[]` performs). -/
def nodeOf (r : LRUKReplacer) (f : Nat) : LRUKNode :=
  (alookup r.node_store f).getD {}

/-- Field `replacer_size_` is a `size_t`; increments and decrements wrap mod `2^64`. -/
def szInc (n : Nat) : Nat := (n + 1) % 2 ^ 64

def szDec (n : Nat) : Nat := (n + (2 ^ 64 - 1)) % 2 ^ 64

/-- Operation `LRUKReplacer::RecordAccess`.  On a first access the node is created,
the frame is appended to `candidates_` and `replacer_size_` is
incremented; then `access_cnt` is bumped; on a non-first access the frame
is removed from both lists and re-appended to `candidates_k_` when
`access_cnt >= k_`, else to `candidates_`.  (Ghost fields record the
access timestamp.) -/
def recordAccess (r : LRUKReplacer) (f : Nat) : LRUKReplacer :=
  let first := (alookup r.node_store f).isNone
  let r1 :=
    if first then
      { r with node_store := aset r.node_store f {},
               candidates := r.candidates ++ [f],
               replacer_size := szInc r.replacer_size }
    else r
  let n := (alookup r1.node_store f).getD {}
  let n1 : LRUKNode :=
    { n with access_cnt := n.access_cnt + 1,
             ghost_first := if first then r.clock else n.ghost_first,
             ghost_last := r.clock,
             ghost_hist := n.ghost_hist ++ [r.clock] }
  let r2 := { r1 with node_store := aset r1.node_store f n1, clock := r.clock + 1 }
  if first then r2
  else
    let c := r2.candidates.filter (· ≠ f)
    let ck := r2.candidates_k.filter (· ≠ f)
    if n1.access_cnt ≥ r2.k then
      { r2 with candidates := c, candidates_k := ck ++ [f] }
    else
      { r2 with candidates := c ++ [f], candidates_k := ck }

/-- Operation `LRUKReplacer::SetEvictable`.  Reads (and, via `operator[]`, creates)
the node, adjusts `replacer_size_` on a flag change, writes the flag. -/
def setEvictable (r : LRUKReplacer) (f : Nat) (v : Bool) : LRUKReplacer :=
  let n := (alookup r.node_store f).getD {}
  let sz :=
    if n.is_evictable ≠ v then
      (if v then szInc r.replacer_size else szDec r.replacer_size)
    else r.replacer_size
  { r with node_store := aset r.node_store f { n with is_evictable := v },
           replacer_size := sz }

/-- Operation `LRUKReplacer::Remove`: only `node_store_[frame_id].access_cnt = 0`. -/
def removeFrame (r : LRUKReplacer) (f : Nat) : LRUKReplacer :=
  let n := (alookup r.node_store f).getD {}
  { r with node_store := aset r.node_store f { n with access_cnt := 0 } }

/-- The scan each of `Evict`'s two loops performs: the first frame in the
list whose stored node is evictable. -/
def findEvictable (store : List (Nat × LRUKNode)) : List Nat → Option Nat
  | [] => none
  | f :: t =>
    if ((alookup store f).getD {}).is_evictable then some f
    else findEvictable store t

/-- Operation `LRUKReplacer::Evict`: scan `candidates_` then `candidates_k_` for an
evictable frame; remove it from its list, erase its node, decrement
`replacer_size_`.  Returns `none` when no listed frame is evictable. -/
def evict (r : LRUKReplacer) : Option Nat × LRUKReplacer :=
  match findEvictable r.node_store r.candidates with
  | some f =>
    (some f, { r with candidates := r.candidates.filter (· ≠ f),
                      node_store := aerase r.node_store f,
                      replacer_size := szDec r.replacer_size })
  | none =>
    match findEvictable r.node_store r.candidates_k with
    | some f =>
      (some f, { r with candidates_k := r.candidates_k.filter (· ≠ f),
                        node_store := aerase r.node_store f,
                        replacer_size := szDec r.replacer_size })
    | none => (none, r)

/-- Operation `LRUKReplacer::Size`. -/
def lrukSize (r : LRUKReplacer) : Nat := r.replacer_size

/-- The number of tracked frames whose `is_evictable` flag is set. -/
def trackedEvictableCount (r : LRUKReplacer) : Nat :=
  (r.node_store.filter (fun pr => pr.2.is_evictable)).length

theorem findEvictable_eq_none_iff (store : List (Nat × LRUKNode)) (l : List Nat) :
    findEvictable store l = none ↔
      ∀ f ∈ l, ((alookup store f).getD {}).is_evictable = false := by
  induction l with
  | nil => simp [findEvictable]
  | cons hd t ih =>
    by_cases h : ((alookup store hd).getD {}).is_evictable
    · simp [findEvictable, h]
    · simp only [Bool.not_eq_true] at h
      simp [findEvictable, h, ih]

theorem findEvictable_mem_flag {store : List (Nat × LRUKNode)} {l : List Nat} {f : Nat}
    (h : findEvictable store l = some f) :
    f ∈ l ∧ ((alookup store f).getD {}).is_evictable = true := by
  induction l with
  | nil => simp [findEvictable] at h
  | cons hd t ih =>
    by_cases hh : ((alookup store hd).getD {}).is_evictable
    · have : hd = f := by simpa [findEvictable, hh] using h
      subst this
      exact ⟨List.mem_cons_self _ _, hh⟩
    · have h' : findEvictable store t = some f := by
        simpa [findEvictable, hh] using h
      exact ⟨List.mem_cons_of_mem _ (ih h').1, (ih h').2⟩

theorem findEvictable_min {store : List (Nat × LRUKNode)} {l : List Nat} {f : Nat}
    (hs : l.Pairwise (fun a b =>
      ((alookup store a).getD {}).ghost_last < ((alookup store b).getD {}).ghost_last))
    (h : findEvictable store l = some f) :
    ∀ g ∈ l, ((alookup store g).getD {}).is_evictable = true →
      ((alookup store f).getD {}).ghost_last ≤ ((alookup store g).getD {}).ghost_last := by
  induction l with
  | nil => simp [findEvictable] at h
  | cons hd t ih =>
    rcases List.pairwise_cons.mp hs with ⟨hhd, ht⟩
    by_cases hh : ((alookup store hd).getD {}).is_evictable
    · have : hd = f := by simpa [findEvictable, hh] using h
      subst this
      intro g hg _
      rcases List.mem_cons.mp hg with rfl | hg
      · exact le_refl _
      · exact le_of_lt (hhd g hg)
    · have h' : findEvictable store t = some f := by
        simpa [findEvictable, hh] using h
      intro g hg hge
      rcases List.mem_cons.mp hg with rfl | hg
      · exact absurd hge (by simpa using hh)
      · exact ih ht h' g hg hge

/-- Structural well-formedness of a replacer state.  These conditions hold
in every state the operations produce when frames are accessed before
being toggled and `Remove` is not used: duplicate-free disjoint candidate
queues listing exactly the frames with at least one recorded access, cold
entries with fewer than `k` accesses, warm entries with at least `k`, and
each queue ordered by the frame's most recent access. -/
def lrukInv (r : LRUKReplacer) : Prop :=
  keysNodup r.node_store
  ∧ r.candidates.Nodup
  ∧ r.candidates_k.Nodup
  ∧ (∀ f ∈ r.candidates, f ∉ r.candidates_k)
  ∧ (∀ f ∈ r.candidates, 1 ≤ (nodeOf r f).access_cnt ∧ (nodeOf r f).access_cnt < r.k)
  ∧ (∀ f ∈ r.candidates_k, 1 ≤ (nodeOf r f).access_cnt ∧ r.k ≤ (nodeOf r f).access_cnt)
  ∧ (∀ pr ∈ r.node_store, 1 ≤ pr.2.access_cnt → pr.1 ∈ r.candidates ∨ pr.1 ∈ r.candidates_k)
  ∧ r.candidates.Pairwise (fun a b => (nodeOf r a).ghost_last < (nodeOf r b).ghost_last)
  ∧ r.candidates_k.Pairwise (fun a b => (nodeOf r a).ghost_last < (nodeOf r b).ghost_last)

instance (r : LRUKReplacer) : Decidable (lrukInv r) := by
  unfold lrukInv; infer_instance

theorem nodeOf_mem {r : LRUKReplacer} {f : Nat} (h1 : 1 ≤ (nodeOf r f).access_cnt) :
    (f, nodeOf r f) ∈ r.node_store := by
  unfold nodeOf at *
  cases hl : alookup r.node_store f with
  | none => rw [hl] at h1; simp at h1
  | some n => simpa using alookup_some_mem hl

/-- C2 (amended):  In every well-formed replacer state, `Evict`
returns false iff no tracked frame (one with at least one recorded
access) is evictable; otherwise it returns the evictable frame with fewer
than K accesses that was least recently accessed, and only when no cold
evictable frame exists does it return the evictable frame with at least K
accesses that was least recently accessed (the code keeps no timestamps
and does plain LRU on the most recent access inside each class, not LRU
on the earliest access nor backward K-distance); the chosen frame's
tracking state is removed entirely. -/
theorem lruk_evict_amended (r : LRUKReplacer) (hInv : lrukInv r) :
    ((evict r).fst = none ↔ ∀ pr ∈ r.node_store, 1 ≤ pr.2.access_cnt → pr.2.is_evictable = false)
    ∧ (∀ f, (evict r).fst = some f →
        (nodeOf r f).is_evictable = true
        ∧ alookup (evict r).snd.node_store f = none
        ∧ f ∉ (evict r).snd.candidates ∧ f ∉ (evict r).snd.candidates_k)
    ∧ (∀ f, (evict r).fst = some f →
        (∃ g ∈ r.candidates, (nodeOf r g).is_evictable = true) →
        f ∈ r.candidates ∧ 1 ≤ (nodeOf r f).access_cnt ∧ (nodeOf r f).access_cnt < r.k
        ∧ ∀ g ∈ r.candidates, (nodeOf r g).is_evictable = true →
            (nodeOf r f).ghost_last ≤ (nodeOf r g).ghost_last)
    ∧ (∀ f, (evict r).fst = some f →
        (∀ g ∈ r.candidates, (nodeOf r g).is_evictable = false) →
        f ∈ r.candidates_k ∧ r.k ≤ (nodeOf r f).access_cnt
        ∧ ∀ g ∈ r.candidates_k, (nodeOf r g).is_evictable = true →
            (nodeOf r f).ghost_last ≤ (nodeOf r g).ghost_last) := by
  obtain ⟨hnd, hcnd, hknd, hdisj, hcold, hwarm, hlisted, hsc, hsk⟩ := hInv
  cases hc : findEvictable r.node_store r.candidates with
  | some f0 =>
    have hmem := findEvictable_mem_flag hc
    refine ⟨?_, ?_, ?_, ?_⟩
    · constructor
      · intro habs
        simp [evict, hc] at habs
      · intro hall
        exfalso
        have h1 : 1 ≤ (nodeOf r f0).access_cnt := (hcold f0 hmem.1).1
        have h2 := hall (f0, nodeOf r f0) (nodeOf_mem h1) h1
        have h3 : (nodeOf r f0).is_evictable = true := hmem.2
        rw [h2] at h3
        exact Bool.false_ne_true h3
    · intro f hf
      have hff : f0 = f := by simpa [evict, hc] using hf
      subst hff
      refine ⟨hmem.2, ?_, ?_, ?_⟩
      · simp [evict, hc, alookup_aerase]
      · simp [evict, hc, List.mem_filter]
      · simp only [evict, hc]
        exact hdisj f0 hmem.1
    · intro f hf _
      have hff : f0 = f := by simpa [evict, hc] using hf
      subst hff
      exact ⟨hmem.1, (hcold f0 hmem.1).1, (hcold f0 hmem.1).2,
        fun g hg hge => findEvictable_min hsc hc g hg hge⟩
    · intro f hf hnone
      have hff : f0 = f := by simpa [evict, hc] using hf
      subst hff
      have h2 := hnone f0 hmem.1
      unfold nodeOf at h2
      rw [h2] at hmem
      exact absurd hmem.2 Bool.false_ne_true
  | none =>
    have hcall := (findEvictable_eq_none_iff r.node_store r.candidates).mp hc
    cases hck : findEvictable r.node_store r.candidates_k with
    | some f0 =>
      have hmem := findEvictable_mem_flag hck
      refine ⟨?_, ?_, ?_, ?_⟩
      · constructor
        · intro habs
          simp [evict, hc, hck] at habs
        · intro hall
          exfalso
          have h1 : 1 ≤ (nodeOf r f0).access_cnt := (hwarm f0 hmem.1).1
          have h2 := hall (f0, nodeOf r f0) (nodeOf_mem h1) h1
          have h3 : (nodeOf r f0).is_evictable = true := hmem.2
          rw [h2] at h3
          exact Bool.false_ne_true h3
      · intro f hf
        have hff : f0 = f := by simpa [evict, hc, hck] using hf
        subst hff
        refine ⟨hmem.2, ?_, ?_, ?_⟩
        · simp [evict, hc, hck, alookup_aerase]
        · simp only [evict, hc, hck]
          intro habs
          have := hcall f0 habs
          rw [this] at hmem
          exact Bool.false_ne_true hmem.2
        · simp [evict, hc, hck, List.mem_filter]
      · intro f hf hex
        exfalso
        obtain ⟨g, hg, hge⟩ := hex
        have := hcall g hg
        unfold nodeOf at hge
        rw [this] at hge
        exact Bool.false_ne_true hge
      · intro f hf _
        have hff : f0 = f := by simpa [evict, hc, hck] using hf
        subst hff
        exact ⟨hmem.1, (hwarm f0 hmem.1).2,
          fun g hg hge => findEvictable_min hsk hck g hg hge⟩
    | none =>
      have hkall := (findEvictable_eq_none_iff r.node_store r.candidates_k).mp hck
      refine ⟨?_, ?_, ?_, ?_⟩
      · constructor
        · intro _ pr hpr hcnt
          have hl : alookup r.node_store pr.1 = some pr.2 := by
            apply mem_alookup_of_nodup hnd
            exact hpr
          have hn : (alookup r.node_store pr.1).getD {} = pr.2 := by simp [hl]
          rcases hlisted pr hpr hcnt with h | h
          · have := hcall pr.1 h
            rw [hn] at this
            exact this
          · have := hkall pr.1 h
            rw [hn] at this
            exact this
        · intro _
          simp [evict, hc, hck]
      · intro f hf
        simp [evict, hc, hck] at hf
      · intro f hf
        simp [evict, hc, hck] at hf
      · intro f hf
        simp [evict, hc, hck] at hf

/-- The timestamp of a frame's `j`-th-most-recent recorded access
(`j = 1` is the most recent), read off the ghost history. -/
def kthMostRecent (n : LRUKNode) (j : Nat) : Nat :=
  n.ghost_hist.reverse.getD (j - 1) 0

/-- Cold-side state, `k = 3`: frame 1 accessed at times 0 and 2, frame 2 at time 1; both
evictable.  Both frames are cold (fewer than 3 accesses). -/
def lrukColdState : LRUKReplacer :=
  setEvictable
    (setEvictable (recordAccess (recordAccess (recordAccess (lrukInit 3) 1) 2) 1) 1 true)
    2 true

/-- Warm-side state, `k = 2`: frame 1 accessed at times 0, 1, 4, frame 2 at times 2, 3;
both evictable.  Both frames are warm (at least 2 accesses). -/
def lrukWarmState : LRUKReplacer :=
  setEvictable
    (setEvictable
      (recordAccess
        (recordAccess (recordAccess (recordAccess (recordAccess (lrukInit 2) 1) 1) 2) 2) 1)
      1 true)
    2 true

/-- C2 (counterexample):  The claim's eviction order fails on the
code.  Cold side (`k = 3`): frames 1 and 2 are both evictable with fewer
than 3 accesses, frame 1's earliest access (time 0) precedes frame 2's
(time 1), yet `Evict` returns frame 2 — the code orders cold frames by
most recent access, not earliest access.  Warm side (`k = 2`): both
frames have at least 2 accesses, frame 1's 2nd-most-recent access
(time 1) precedes frame 2's (time 2), so the claim picks frame 1, yet
`Evict` returns frame 2 — the code keeps no timestamps and does not use
backward K-distance. -/
theorem lruk_evict_claim_counterexample :
    ((evict lrukColdState).fst = some 2
      ∧ (nodeOf lrukColdState 1).is_evictable = true
      ∧ (nodeOf lrukColdState 1).access_cnt < lrukColdState.k
      ∧ (nodeOf lrukColdState 2).is_evictable = true
      ∧ (nodeOf lrukColdState 2).access_cnt < lrukColdState.k
      ∧ (nodeOf lrukColdState 1).ghost_first < (nodeOf lrukColdState 2).ghost_first
      ∧ (2 : Nat) ≠ 1)
    ∧ ((evict lrukWarmState).fst = some 2
      ∧ (nodeOf lrukWarmState 1).is_evictable = true
      ∧ lrukWarmState.k ≤ (nodeOf lrukWarmState 1).access_cnt
      ∧ (nodeOf lrukWarmState 2).is_evictable = true
      ∧ lrukWarmState.k ≤ (nodeOf lrukWarmState 2).access_cnt
      ∧ kthMostRecent (nodeOf lrukWarmState 1) lrukWarmState.k
          < kthMostRecent (nodeOf lrukWarmState 2) lrukWarmState.k) := by
  decide

/-- Witness for `lruk_evict_amended`: the well-formedness hypothesis is
satisfied at a concrete reachable state, on which the theorem yields the
eviction result's properties. -/
theorem lruk_evict_amended_witness :
    lrukInv lrukColdState
    ∧ ((nodeOf lrukColdState 2).is_evictable = true
       ∧ alookup (evict lrukColdState).snd.node_store 2 = none
       ∧ 2 ∉ (evict lrukColdState).snd.candidates
       ∧ 2 ∉ (evict lrukColdState).snd.candidates_k) :=
  ⟨by decide, (lruk_evict_amended lrukColdState (by decide)).2.1 2 (by decide)⟩

/-- C7 (code-bug evaluation):  After a single `RecordAccess(1)` on a
fresh replacer, `Size()` is 1 although no tracked frame is evictable:
`RecordAccess` increments `replacer_size_` on every first access
regardless of evictability, so `Size()` does not equal the number of
tracked evictable frames. -/
theorem lruk_size_bug_eval :
    lrukSize (recordAccess (lrukInit 2) 1) = 1
    ∧ trackedEvictableCount (recordAccess (lrukInit 2) 1) = 0
    ∧ (1 : Nat) ≠ 0 := by
  decide

/-! ## Buffer pool manager (`src/buffer/buffer_pool_manager.cpp`)

A frame's `Page` carries `page_id_` (`INVALID_PAGE_ID = -1`), a signed
`pin_count_`, the dirty bit and an abstract content word (`data`,
standing for the page buffer; `ResetMemory` zeroes it).  The frame array
`pages_` is a function from frame index; every access in the source goes
through `pages_[frame_id % pool_size_]` and the model mirrors that.  The
disk store is a function from page id to content.  Latch acquisition and
release are no-ops on the sequential state.
-/

structure Page where
  page_id : Int := -1
  pin_count : Int := 0
  is_dirty : Bool := false
  data : Nat := 0
deriving DecidableEq

structure BufferPoolManager where
  pool_size : Nat
  pages : Nat → Page
  replacer : LRUKReplacer
  free_list : List Nat
  page_table : List (Int × Nat)
  next_page_id : Int
  disk : Int → Nat

def updateP (f : Nat → Page) (i : Nat) (p : Page) : Nat → Page :=
  fun j => if j = i then p else f j

def updateD (f : Int → Nat) (i : Int) (v : Nat) : Int → Nat :=
  fun j => if j = i then v else f j

/-- Operation `BufferPoolManager::FlushPage`: return false when the page is not in
the page table; otherwise clear the dirty bit and write the frame's
buffer to disk at the argument page id, returning true. -/
def flushPage (bpm : BufferPoolManager) (pid : Int) : Bool × BufferPoolManager :=
  match alookup bpm.page_table pid with
  | none => (false, bpm)
  | some fid =>
    let idx := fid % bpm.pool_size
    let page := bpm.pages idx
    (true, { bpm with pages := updateP bpm.pages idx { page with is_dirty := false },
                      disk := updateD bpm.disk pid page.data })

/-- Operation `BufferPoolManager::UnpinPage`.  `page_table_[page_id]` is
`unordered_map::operator[]`: a non-resident page id is inserted with
value-initialised frame 0.  If the frame's pin count is non-positive the
call returns false; otherwise the dirty bit is overwritten with the
argument, the frame is recorded and marked evictable, and true is
returned.  The pin count is never decremented. -/
def unpinPage (bpm : BufferPoolManager) (pid : Int) (d : Bool) : Bool × BufferPoolManager :=
  let fid := (alookup bpm.page_table pid).getD 0
  let bpm :=
    match alookup bpm.page_table pid with
    | some _ => bpm
    | none => { bpm with page_table := bpm.page_table ++ [(pid, 0)] }
  let idx := fid % bpm.pool_size
  let page := bpm.pages idx
  if page.pin_count ≤ 0 then (false, bpm)
  else
    let bpm := { bpm with pages := updateP bpm.pages idx { page with is_dirty := d } }
    (true, { bpm with replacer := setEvictable (recordAccess bpm.replacer fid) fid true })

/-- Operation `BufferPoolManager::DeletePage`.  `DeallocatePage` is id-space
management and a no-op on the modelled state.  A non-resident page yields
true; a pinned page yields false without changes; otherwise the frame is
returned to the free list, its metadata reset, the page-table entry
erased — and the function returns false. -/
def deletePage (bpm : BufferPoolManager) (pid : Int) : Bool × BufferPoolManager :=
  match alookup bpm.page_table pid with
  | none => (true, bpm)
  | some fid =>
    let idx := fid % bpm.pool_size
    let page := bpm.pages idx
    if page.pin_count > 0 then (false, bpm)
    else
      let bpm := { bpm with free_list := bpm.free_list ++ [fid] }
      let bpm := { bpm with pages := updateP bpm.pages idx {} }
      (false, { bpm with page_table := aerase bpm.page_table pid })

/-- Modelled from the spec: `AllocatePage` (declared in the absent
header) is a monotone `next_page_id_` counter — the value is returned and
the counter stepped (single-instance pool, step 1). -/
def allocatePage (bpm : BufferPoolManager) : Int × BufferPoolManager :=
  (bpm.next_page_id, { bpm with next_page_id := bpm.next_page_id + 1 })

/-- First page-table entry mapping to the given frame (the
`AllocateNewFrame` scan that finds which page occupies a victim frame). -/
def findPidOfFrame : List (Int × Nat) → Nat → Option Int
  | [], _ => none
  | (p, f) :: t, fid => if f = fid then some p else findPidOfFrame t fid

/-- Operation `BufferPoolManager::AllocateNewFrame`: pop the free list if
non-empty; otherwise ask the replacer for a victim, flush and unmap the
page occupying it. -/
def allocateNewFrame (bpm : BufferPoolManager) : Option Nat × BufferPoolManager :=
  match bpm.free_list with
  | f :: rest => (some f, { bpm with free_list := rest })
  | [] =>
    match evict bpm.replacer with
    | (some fid, r1) =>
      let bpm := { bpm with replacer := r1 }
      match findPidOfFrame bpm.page_table fid with
      | some pid =>
        let bpm := (flushPage bpm pid).snd
        (some fid, { bpm with page_table := aerase bpm.page_table pid })
      | none => (some fid, bpm)
    | (none, r1) => (none, { bpm with replacer := r1 })

/-- Operation `BufferPoolManager::NewPage`: secure a frame first; only on success
allocate a page id, reset and pin the frame, record the access, mark it
non-evictable, and insert the page-table entry. -/
def newPage (bpm : BufferPoolManager) : Option Int × BufferPoolManager :=
  match allocateNewFrame bpm with
  | (none, bpm) => (none, bpm)
  | (some fid, bpm) =>
    let (pid, bpm) := allocatePage bpm
    let idx := fid % bpm.pool_size
    let pg : Page := { page_id := pid, pin_count := 1, is_dirty := false, data := 0 }
    let bpm := { bpm with pages := updateP bpm.pages idx pg }
    let bpm := { bpm with replacer := setEvictable (recordAccess bpm.replacer fid) fid false }
    (some pid, { bpm with page_table := bpm.page_table ++ [(pid, fid)] })

/-- C6:  `FlushPage(p)` returns false iff `p` is not resident; when
resident it writes the frame's buffer to the disk store and clears the
frame's dirty bit, leaving every frame's pin count, the page table and
the free list unchanged. -/
theorem flushPage_spec (bpm : BufferPoolManager) (p : Int) :
    ((flushPage bpm p).fst = false ↔ alookup bpm.page_table p = none)
    ∧ (flushPage bpm p).snd.page_table = bpm.page_table
    ∧ (flushPage bpm p).snd.free_list = bpm.free_list
    ∧ (∀ i, ((flushPage bpm p).snd.pages i).pin_count = (bpm.pages i).pin_count)
    ∧ (∀ fid, alookup bpm.page_table p = some fid →
        (flushPage bpm p).snd.disk p = (bpm.pages (fid % bpm.pool_size)).data
        ∧ ((flushPage bpm p).snd.pages (fid % bpm.pool_size)).is_dirty = false) := by
  cases h : alookup bpm.page_table p with
  | none => simp [flushPage, h]
  | some fid =>
    refine ⟨by simp [flushPage, h], by simp [flushPage, h], by simp [flushPage, h], ?_, ?_⟩
    · intro i
      by_cases hi : i = fid % bpm.pool_size <;> simp [flushPage, h, updateP, hi]
    · intro fid' hf
      have hff : fid' = fid := (Option.some.inj hf).symm
      subst hff
      exact ⟨by simp [flushPage, h, updateD], by simp [flushPage, h, updateP]⟩

/-- A state with page 7 resident in frame 0, pinned three times, dirty,
its buffer holding 5; the disk holds 0 everywhere. -/
def bpmFlushW : BufferPoolManager :=
  { pool_size := 1,
    pages := fun _ => { page_id := 7, pin_count := 3, is_dirty := true, data := 5 },
    replacer := lrukInit 2,
    free_list := [],
    page_table := [(7, 0)],
    next_page_id := 8,
    disk := fun _ => 0 }

theorem flushPage_spec_witness :
    alookup bpmFlushW.page_table 7 = some 0
    ∧ ((flushPage bpmFlushW 7).snd.disk 7 = (bpmFlushW.pages (0 % bpmFlushW.pool_size)).data
       ∧ ((flushPage bpmFlushW 7).snd.pages (0 % bpmFlushW.pool_size)).is_dirty = false) :=
  ⟨by decide, (flushPage_spec bpmFlushW 7).2.2.2.2 0 (by decide)⟩

/-- C10:  When no frame can be secured (free list empty, no evictable
frame) `NewPage` returns null and `next_page_id_` is unchanged: the frame
is secured before the page id is allocated. -/
theorem newPage_fail_spec (bpm : BufferPoolManager)
    (h1 : bpm.free_list = [])
    (h2 : (evict bpm.replacer).fst = none) :
    (newPage bpm).fst = none ∧ (newPage bpm).snd.next_page_id = bpm.next_page_id := by
  cases hev : evict bpm.replacer with
  | mk o r1 =>
    rw [hev] at h2
    simp only at h2
    subst h2
    simp [newPage, allocateNewFrame, h1, hev]

/-- A full one-frame pool whose only frame is pinned (tracked,
non-evictable), so no frame can be secured. -/
def bpmNewW : BufferPoolManager :=
  { pool_size := 1,
    pages := fun _ => { page_id := 3, pin_count := 1, is_dirty := false, data := 0 },
    replacer := setEvictable (recordAccess (lrukInit 2) 0) 0 false,
    free_list := [],
    page_table := [(3, 0)],
    next_page_id := 4,
    disk := fun _ => 0 }

theorem newPage_fail_spec_witness :
    bpmNewW.free_list = []
    ∧ (evict bpmNewW.replacer).fst = none
    ∧ ((newPage bpmNewW).fst = none
       ∧ (newPage bpmNewW).snd.next_page_id = bpmNewW.next_page_id) :=
  ⟨rfl, by decide, newPage_fail_spec bpmNewW rfl (by decide)⟩

/-- Page 7 resident in frame 0 with pin count 2. -/
def bpmUnpinW : BufferPoolManager :=
  { pool_size := 1,
    pages := fun _ => { page_id := 7, pin_count := 2, is_dirty := false, data := 0 },
    replacer := setEvictable (recordAccess (lrukInit 2) 0) 0 false,
    free_list := [],
    page_table := [(7, 0)],
    next_page_id := 8,
    disk := fun _ => 0 }

/-- C1 (code-bug evaluation):  Unpinning resident page 7 (pin count
2) returns true but leaves the pin count at 2 (never decremented) and
marks the frame evictable even though the claimed new pin count (1)
is nonzero; the dirty bit is overwritten with the argument rather than
ORed. -/
theorem unpinPage_bug_eval :
    (unpinPage bpmUnpinW 7 false).fst = true
    ∧ ((unpinPage bpmUnpinW 7 false).snd.pages 0).pin_count = 2
    ∧ (nodeOf (unpinPage bpmUnpinW 7 false).snd.replacer 0).is_evictable = true
    ∧ (2 : Int) ≠ 2 - 1 := by
  decide

/-- Page 7 resident in frame 0 with pin count 0, dirty, buffer 5. -/
def bpmDeleteW : BufferPoolManager :=
  { pool_size := 1,
    pages := fun _ => { page_id := 7, pin_count := 0, is_dirty := true, data := 5 },
    replacer := setEvictable (recordAccess (lrukInit 2) 0) 0 true,
    free_list := [],
    page_table := [(7, 0)],
    next_page_id := 8,
    disk := fun _ => 0 }

/-- C4 (code-bug evaluation):  Deleting resident, unpinned page 7
performs the whole deletion — frame 0 returned to the free list, metadata
reset to `(INVALID, 0, clean)`, page-table entry erased — yet returns
false where the claim (and the spec's own open question) says true. -/
theorem deletePage_bug_eval :
    (deletePage bpmDeleteW 7).fst = false
    ∧ (deletePage bpmDeleteW 7).snd.page_table = []
    ∧ (deletePage bpmDeleteW 7).snd.free_list = [0]
    ∧ ((deletePage bpmDeleteW 7).snd.pages 0).page_id = -1
    ∧ ((deletePage bpmDeleteW 7).snd.pages 0).pin_count = 0
    ∧ ((deletePage bpmDeleteW 7).snd.pages 0).is_dirty = false
    ∧ false ≠ true := by
  decide

/-! ## Hash-table bucket page (`src/storage/page/hash_table_bucket_page.cpp`)

Keys and values are modelled as `Nat` (the instantiation
`HashTableBucketPage<int,int,IntComparator>`; the comparator is
equality).  `occupied_`/`readable_` are byte-addressed bitmaps, modelled
as functions from byte index to byte value; `BYTE_IDX(i) = i >> 3`,
`BIT_MASK(i) = 1 << (i & 7)`.  The counters `size_`, `taken_`, `free_`
are `uint32_t`.  `IsOccupied`/`IsReadable` compare the masked byte to 1
exactly as the source does.  `SetOccupied` is absent from the source and
`SetReadable`'s body is lost in the mangled region (lines 101–107); both
are modelled from the spec as setting the slot's bit. -/

def u32Inc (n : Nat) : Nat := (n + 1) % 2 ^ 32

def u32Dec (n : Nat) : Nat := (n + (2 ^ 32 - 1)) % 2 ^ 32

def byteIdx (i : Nat) : Nat := i >>> 3

def bitMask (i : Nat) : Nat := 1 <<< (i &&& 7)

def bitUnmask (i : Nat) : Nat := bitMask i ^^^ 0xff

structure BucketPage where
  size : Nat := 0
  taken : Nat := 0
  free : Nat := 0
  occupied : Nat → Nat := fun _ => 0
  readable : Nat → Nat := fun _ => 0
  keys : Nat → Nat := fun _ => 0
  vals : Nat → Nat := fun _ => 0

/-- Predicate `IsOccupied`: `(occupied_[BYTE_IDX(i)] & BIT_MASK(i)) == 1` — the
source compares the masked byte to 1, not to zero. -/
def isOccupiedB (b : BucketPage) (i : Nat) : Bool :=
  (b.occupied (byteIdx i) &&& bitMask i) == 1

/-- Predicate `IsReadable`: same `== 1` comparison as the source. -/
def isReadableB (b : BucketPage) (i : Nat) : Bool :=
  (b.readable (byteIdx i) &&& bitMask i) == 1

/-- Modelled from the spec: `SetOccupied` (absent from the source file)
sets the slot's bit in the occupied bitmap. -/
def setOccupiedB (b : BucketPage) (i : Nat) : BucketPage :=
  { b with occupied := fun j =>
      if j = byteIdx i then b.occupied (byteIdx i) ||| bitMask i else b.occupied j }

/-- Modelled from the spec: `SetReadable` (body lost in the source's
mangled region) sets the slot's bit in the readable bitmap. -/
def setReadableB (b : BucketPage) (i : Nat) : BucketPage :=
  { b with readable := fun j =>
      if j = byteIdx i then b.readable (byteIdx i) ||| bitMask i else b.readable j }

/-- Operation `SetUnreadable`: `readable_[BYTE_IDX(i)] &= BIT_UNMASK(i)`. -/
def setUnreadableB (b : BucketPage) (i : Nat) : BucketPage :=
  { b with readable := fun j =>
      if j = byteIdx i then b.readable (byteIdx i) &&& bitUnmask i else b.readable j }

/-- Operation `RemoveAt`: `taken_--; free_++; SetUnreadable(i)`. -/
def removeAtB (b : BucketPage) (i : Nat) : BucketPage :=
  setUnreadableB { b with taken := u32Dec b.taken, free := u32Inc b.free } i

/-- The duplicate scan in `Insert`: some readable slot holds `(k, v)`. -/
def bucketHasDup (b : BucketPage) (k v : Nat) : Bool :=
  (List.range b.size).any (fun i => isReadableB b i && (b.keys i == k) && (b.vals i == v))

/-- Helper `earliest_vacant`: the first slot below `size_` that is not readable,
else `size_`. -/
def earliestVacant (b : BucketPage) : Nat :=
  ((List.range b.size).filter (fun i => !(isReadableB b i))).headD b.size

/-- Operation `HashTableBucketPage::Insert`.  A readable duplicate returns false.
Otherwise the chosen slot gets occupied (fresh slots only) and readable
bits and the pair is stored — and control falls off the end of the
`bool`-returning function without a `return`: the `none` result models
that missing return value. -/
def bucketInsert (b : BucketPage) (k v : Nat) : Option Bool × BucketPage :=
  if bucketHasDup b k v then (some false, b)
  else
    let ev := earliestVacant b
    let b1 :=
      if ev = b.size then { setOccupiedB b ev with size := u32Inc b.size }
      else { b with free := u32Dec b.free }
    let b2 := { setReadableB b1 ev with taken := u32Inc b1.taken }
    let b3 := { b2 with keys := fun j => if j = ev then k else b2.keys j,
                        vals := fun j => if j = ev then v else b2.vals j }
    (none, b3)

/-- Operation `HashTableBucketPage::Remove`: first readable exact match is removed. -/
def bucketRemoveKV (b : BucketPage) (k v : Nat) : Bool × BucketPage :=
  match (List.range b.size).find?
      (fun i => isReadableB b i && (b.keys i == k) && (b.vals i == v)) with
  | some i => (true, removeAtB b i)
  | none => (false, b)

/-- Operation `HashTableBucketPage::GetValue`: collect the values of readable slots
with an equal key.  Declared `bool`, but the source ends without a
return; the `none` component models that missing value. -/
def bucketGetValue (b : BucketPage) (k : Nat) : Option Bool × List Nat :=
  (none, ((List.range b.size).filter (fun i => isReadableB b i && (b.keys i == k))).map b.vals)

/-- Predicate `IsFull`: `taken_ == BUCKET_ARRAY_SIZE` (the capacity, a page-size
constant from the absent header, is the `cap` parameter). -/
def isFullB (cap : Nat) (b : BucketPage) : Bool := b.taken == cap

def isEmptyB (b : BucketPage) : Bool := b.taken == 0

/-! ## Disk extendible hash table
(`src/container/disk/hash/disk_extendible_hash_table.cpp`)

The directory page holds `global_depth` and the per-entry
`(bucket_page_id, local_depth)` arrays (functions from entry index).
Buffer-pool fetches resolve to direct reads of the modelled page states.
`GetLocalHighBit` lives in the absent directory-page header; modelled
from the spec: the bucket's local high bit is `1 << (local_depth - 1)`. -/

structure HashTableDirectoryPage where
  global_depth : Nat := 0
  bucket_page_ids : Nat → Nat := fun _ => 0
  local_depths : Nat → Nat := fun _ => 0

def globalDepthMask (d : HashTableDirectoryPage) : Nat := (1 <<< d.global_depth) - 1

def setBucketPageId (d : HashTableDirectoryPage) (i v : Nat) : HashTableDirectoryPage :=
  { d with bucket_page_ids := fun j => if j = i then v else d.bucket_page_ids j }

def setLocalDepth (d : HashTableDirectoryPage) (i v : Nat) : HashTableDirectoryPage :=
  { d with local_depths := fun j => if j = i then v else d.local_depths j }

/-- Modelled from the spec: the bucket's local high bit is
`1 << (local_depth - 1)`. -/
def localHighBit (d : HashTableDirectoryPage) (i : Nat) : Nat :=
  1 <<< (d.local_depths i - 1)

structure HashTableState where
  cap : Nat
  hash : Nat → Nat
  dir : HashTableDirectoryPage
  buckets : Nat → BucketPage
  next_bucket_page : Nat

def updateBk (f : Nat → BucketPage) (i : Nat) (b : BucketPage) : Nat → BucketPage :=
  fun j => if j = i then b else f j

/-- Helper `KeyToDirectoryIndex`: `Hash(key) & GetGlobalDepthMask()`. -/
def keyToDirIndex (st : HashTableState) (k : Nat) : Nat :=
  st.hash k &&& globalDepthMask st.dir

/-- Helper `KeyToPageId`. -/
def keyToPageId (st : HashTableState) (k : Nat) : Nat :=
  st.dir.bucket_page_ids (keyToDirIndex st k)

/-- Operation `DiskExtendibleHashTable::GetValue`: resolve the bucket for the key
and scan it. -/
def tableGetValue (st : HashTableState) (k : Nat) : Option Bool × List Nat :=
  bucketGetValue (st.buckets (keyToPageId st k)) k

/-- Operation `DiskExtendibleHashTable::Insert`: the source body is `return false;`
— nothing is inserted. -/
def tableInsert (st : HashTableState) (_k _v : Nat) : Bool × HashTableState :=
  (false, st)

/-- The value of `~prev_mask` at `uint32_t` width. -/
def u32Neg (m : Nat) : Nat := (2 ^ 32 - 1) ^^^ m

/-- Operation `DiskExtendibleHashTable::SplitInsert`.  The source reads an
undeclared `bucket_page`; modelled as the bucket the directory resolves
for the key (as `GetValue`/`Remove` do).  After the raw bucket insert,
if the bucket is full: increment the global depth, run the growth loop
`for (i = prev_depth; i < 2 * prev_depth; i++)` copying entry
`i & prev_mask` into entry `i`, allocate a fresh bucket page, point entry
`(split_bucket_id | ~prev_mask) & new_mask` at it with local depth
`local_depth(split_bucket_id) - 1`, and rehash: every readable slot whose
hash ANDed with the local high bit equals 1 is inserted into the new
bucket and removed from the old. -/
def splitInsert (st : HashTableState) (k v : Nat) : Option Bool × HashTableState :=
  let bpid := keyToPageId st k
  let (res, bp1) := bucketInsert (st.buckets bpid) k v
  let st1 := { st with buckets := updateBk st.buckets bpid bp1 }
  if isFullB st.cap bp1 then
    let prev_depth := st.dir.global_depth
    let prev_mask := globalDepthMask st.dir
    let split_bucket_id := keyToDirIndex st k
    let dir1 := { st.dir with global_depth := st.dir.global_depth + 1 }
    let dir2 := (List.range' prev_depth prev_depth).foldl
      (fun d i =>
        setLocalDepth (setBucketPageId d i (d.bucket_page_ids (i &&& prev_mask)))
          i (d.local_depths (i &&& prev_mask)))
      dir1
    let new_bucket_id := (split_bucket_id ||| u32Neg prev_mask) &&& globalDepthMask dir2
    let new_page_id := st.next_bucket_page
    let dir3 := setBucketPageId dir2 new_bucket_id new_page_id
    let dir4 := setLocalDepth dir3 new_bucket_id (dir3.local_depths split_bucket_id - 1)
    let moved := (List.range st.cap).foldl
      (fun (pr : BucketPage × BucketPage) i =>
        if isReadableB pr.1 i
            && ((st.hash (pr.1.keys i) &&& localHighBit dir4 split_bucket_id) == 1) then
          (removeAtB pr.1 i, (bucketInsert pr.2 (pr.1.keys i) (pr.1.vals i)).snd)
        else pr)
      (bp1, {})
    (res, { st1 with dir := dir4,
                     next_bucket_page := st.next_bucket_page + 1,
                     buckets := updateBk (updateBk st1.buckets bpid moved.1) new_page_id moved.2 })
  else (res, st1)

/-- An empty bucket page (all counters and bitmaps zero, as a freshly
zeroed page). -/
def bucketEmptyW : BucketPage := {}

/-- C8 (code-bug evaluation):  Inserting `(0,0)` into an empty (hence
non-full) bucket does set the chosen slot's occupied and readable bits
and store the pair — but the function's success path ends without a
`return` statement although it is declared `bool`, so no defined value
(in particular not `true`) is returned. -/
theorem bucketInsert_bug_eval :
    (bucketInsert bucketEmptyW 0 0).fst = none
    ∧ isReadableB (bucketInsert bucketEmptyW 0 0).snd 0 = true
    ∧ isOccupiedB (bucketInsert bucketEmptyW 0 0).snd 0 = true
    ∧ (bucketInsert bucketEmptyW 0 0).snd.keys 0 = 0
    ∧ (bucketInsert bucketEmptyW 0 0).snd.vals 0 = 0
    ∧ (bucketInsert bucketEmptyW 0 0).snd.taken = 1
    ∧ (bucketInsert bucketEmptyW 0 0).fst ≠ some true := by
  decide

/-- A freshly constructed table: global depth 1, entry 0 pointing at the
(empty) initial bucket page 10 with local depth 1; the constructor leaves
the remaining entries zeroed.  The hash function is the identity. -/
def hashEmptyW : HashTableState :=
  { cap := 2,
    hash := fun n => n,
    dir := { global_depth := 1,
             bucket_page_ids := fun i => if i = 0 then 10 else 0,
             local_depths := fun i => if i = 0 then 1 else 0 },
    buckets := fun _ => {},
    next_bucket_page := 11 }

/-- C3 (code-bug evaluation):  On a fresh table, `Insert(0,0)` is the
source's stub `return false;` — it changes nothing — so the subsequent
`GetValue(0)` yields the empty result set, which does not contain the
inserted value. -/
theorem tableInsert_bug_eval :
    (tableInsert hashEmptyW 0 0).fst = false
    ∧ (tableGetValue (tableInsert hashEmptyW 0 0).snd 0).snd = []
    ∧ ¬(0 ∈ (tableGetValue (tableInsert hashEmptyW 0 0).snd 0).snd)
    ∧ false ≠ true := by
  decide

/-- Bucket capacity 2; global depth 1; entry 0 → page 10 (empty), entry 1
→ page 11 holding one live pair `(5, 50)` in slot 0; local depths 1.
Inserting key 1 (identity hash, low bit 1) fills bucket 11 and triggers
the split path. -/
def hashSplitW : HashTableState :=
  { cap := 2,
    hash := fun n => n,
    dir := { global_depth := 1,
             bucket_page_ids := fun i => if i = 0 then 10 else if i = 1 then 11 else 0,
             local_depths := fun i => if i ≤ 1 then 1 else 0 },
    buckets := fun i =>
      if i = 11 then
        { size := 1, taken := 1, free := 0,
          occupied := fun j => if j = 0 then 1 else 0,
          readable := fun j => if j = 0 then 1 else 0,
          keys := fun j => if j = 0 then 5 else 0,
          vals := fun j => if j = 0 then 50 else 0 }
      else {},
    next_bucket_page := 12 }

/-- C5 (code-bug evaluation):  Splitting bucket 1 when
`d = D = 1`: the global depth does become 2, but the growth loop iterates
over `[D, 2D)` = `{1}` instead of `[2^D, 2^(D+1))` = `{2, 3}` (a
self-assignment), so new entry 2 keeps the zeroed value instead of
entry 0's bucket page id 10; and the split bucket's local depth stays 1
while the sibling entry 3 gets `d - 1 = 0` — neither ends at `d + 1 = 2`. -/
theorem splitInsert_bug_eval :
    (splitInsert hashSplitW 1 7).snd.dir.global_depth = 2
    ∧ ((splitInsert hashSplitW 1 7).snd.dir.bucket_page_ids 2 = 0
       ∧ hashSplitW.dir.bucket_page_ids (2 &&& ((1 <<< (1 : Nat)) - 1)) = 10
       ∧ (0 : Nat) ≠ 10)
    ∧ ((splitInsert hashSplitW 1 7).snd.dir.local_depths 1 = 1 ∧ (1 : Nat) ≠ 1 + 1)
    ∧ ((splitInsert hashSplitW 1 7).snd.dir.local_depths 3 = 0 ∧ (0 : Nat) ≠ 1 + 1) := by
  decide

/-! ## Page guards (`src/storage/page/page_guard.cpp`)

A `BasicPageGuard` holds `bpm_`, `page_` and `is_dirty_`; pointers are
modelled by presence (`has_bpm : Bool`, `page : Option Int`).  `Drop`
reads the pointed-to page's dirty bit, so the page array's dirty bits are
a parameter `pd`.  The observable effect of a drop is the list of
flush/unpin calls it issues to the buffer pool manager. -/

inductive GuardEvent where
  | flush : Int → GuardEvent
  | unpin : Int → GuardEvent
deriving DecidableEq

structure BasicPageGuard where
  has_bpm : Bool := false
  page : Option Int := none
  is_dirty : Bool := false
deriving DecidableEq

/-- Operation `BasicPageGuard::Drop`: `if (page_->IsDirty()) FlushPage(...);
UnpinPage(...)`.  The guard members are not modified — in particular
`page_` is not cleared.  (With a null `page_` the source would
dereference null; that call is never made here.) -/
def guardDropEvents (pd : Int → Bool) (g : BasicPageGuard) : List GuardEvent :=
  match g.page with
  | none => []
  | some p => (if pd p then [GuardEvent.flush p] else []) ++ [GuardEvent.unpin p]

def guardDrop (pd : Int → Bool) (g : BasicPageGuard) : BasicPageGuard × List GuardEvent :=
  (g, guardDropEvents pd g)

/-- Destructor `~BasicPageGuard()`: `if (page_ != nullptr) Drop();`. -/
def guardDestructEvents (pd : Int → Bool) (g : BasicPageGuard) : List GuardEvent :=
  match g.page with
  | none => []
  | some _ => guardDropEvents pd g

/-- The move constructor: copy the members into the target, null the
source's members.  Returns `(target, moved-from source)`. -/
def guardMoveCtor (that : BasicPageGuard) : BasicPageGuard × BasicPageGuard :=
  ({ has_bpm := that.has_bpm, page := that.page, is_dirty := that.is_dirty },
   { has_bpm := false, page := none, is_dirty := false })

def guardUnpinCount (evs : List GuardEvent) (p : Int) : Nat :=
  (evs.filter (fun e => e = GuardEvent.unpin p)).length

/-- A guard holding (clean) page 1. -/
def guardLiveW : BasicPageGuard := { has_bpm := true, page := some 1, is_dirty := false }

/-- All pages clean. -/
def pdCleanW : Int → Bool := fun _ => false

/-- C9 (code-bug evaluation):  A guard moved from by the move
constructor is indeed inert (its destructor issues no events), but
`Drop()` does not clear `page_`, so an explicit `Drop()` followed by
destruction unpins page 1 twice — more than the claimed at-most-once. -/
theorem pageGuard_double_drop_eval :
    guardDestructEvents pdCleanW (guardMoveCtor guardLiveW).snd = []
    ∧ (guardDrop pdCleanW guardLiveW).snd
        ++ guardDestructEvents pdCleanW (guardDrop pdCleanW guardLiveW).fst
        = [GuardEvent.unpin 1, GuardEvent.unpin 1]
    ∧ guardUnpinCount
        ((guardDrop pdCleanW guardLiveW).snd
          ++ guardDestructEvents pdCleanW (guardDrop pdCleanW guardLiveW).fst) 1 = 2
    ∧ ¬(guardUnpinCount
        ((guardDrop pdCleanW guardLiveW).snd
          ++ guardDestructEvents pdCleanW (guardDrop pdCleanW guardLiveW).fst) 1 ≤ 1) := by
  decide

end Bustub
